import Mathlib

/-!
Shallow embedding of `src/gfx_macros/lib.rs` (the gfx macro-extensions crate):
the `find_name` attribute scanner, the `extern_crate_hack` alias injector,
the `ExternCrateHackFolder` path rewriter, and the `shaders!` directive macro.

Compiler side effects (`cx.span_warn`, `attr::mark_used`, the `push` callback,
and the process-wide gensym counter) are made explicit: warnings and used-marks
are threaded through the fold state, pushed items are returned in a list, and
the gensym counter is passed and returned as a `Nat`.
-/

namespace GfxMacros

/-! ### Literals, meta items and attributes (syntax::ast fragments) -/

/-- A literal value, as in `ast::Lit`: either a string literal (`ast::LitStr`)
or some other literal kind, kept opaque. -/
inductive Lit where
  | litStr (s : String)
  | litOther (n : Nat)
deriving DecidableEq, Repr

/-- A meta item, as in `ast::MetaItem`: a bare word, a `key = literal` pair
(`ast::MetaNameValue`), or a list form (`ast::MetaList`, payload opaque). -/
inductive MetaItem where
  | metaWord (nm : String)
  | metaNameValue (nm : String) (value : Lit)
  | metaList (nm : String) (items : List Nat)
deriving DecidableEq, Repr

/-- An attribute attached to a field, as in `ast::Attribute`; `id` stands for
the attribute's `AttrId`, used to record `attr::mark_used` calls. -/
structure Attribute where
  id : Nat
  node : MetaItem
deriving DecidableEq, Repr

/-- Side effects of `find_name` made explicit: the warnings emitted via
`cx.span_warn` (in order) and the ids of attributes passed to
`attr::mark_used` (in order). -/
structure FindNameState where
  warnings : List String
  used : List Nat
deriving DecidableEq, Repr

/-- The warning text built by the `format!` call in `find_name`:
"Extra field name detected: {new_name} - ignoring in favour of: {name}". -/
def warnText (newName keptName : String) : String :=
  "Extra field name detected: " ++ newName ++ " - ignoring in favour of: " ++ keptName

/-- One step of the fold inside `find_name`. The accumulator is the running
`Option` result of the source fold together with the explicit side-effect
state. Matches the source: a `MetaNameValue` whose name is "name" and whose
value is a string literal is marked used and adopted via
`name.map_or(Some(new_name), |name| { span_warn(...); None })`; any other
`MetaNameValue` hits the inner wildcard arm and yields `None`; any other
attribute shape hits the outer wildcard arm and leaves the accumulator alone. -/
def find_name_step (acc : Option String × FindNameState) (a : Attribute) :
    Option String × FindNameState :=
  match a.node with
  | .metaNameValue nm lit =>
    match lit with
    | .litStr v =>
      if nm = "name" then
        let st := { acc.2 with used := acc.2.used ++ [a.id] }
        match acc.1 with
        | none => (some v, st)
        | some kept => (none, { st with warnings := st.warnings ++ [warnText v kept] })
      else (none, acc.2)
    | _ => (none, acc.2)
  | _ => acc

/-- Embedding of `find_name`: fold `find_name_step` over the attribute list
starting from `None`, returning the source's `Option<InternedString>` result
together with the explicit side-effect state. -/
def find_name (attrs : List Attribute) : Option String × FindNameState :=
  attrs.foldl find_name_step (none, ⟨[], []⟩)

/-- An attribute node is of the name/value shape (`ast::MetaNameValue`). -/
def isNameValueShape : MetaItem → Bool
  | .metaNameValue _ _ => true
  | _ => false

/-- An attribute node is the recognized form: key "name" with a string-literal
value. -/
def isNameMatch : MetaItem → Bool
  | .metaNameValue "name" (.litStr _) => true
  | _ => false

/-! ### Identifiers and gensym -/

/-- An identifier, as in `ast::Ident`: interned text plus the symbol number
that makes gensym'd identifiers distinct even when their text coincides.
`as_str()` corresponds to the `nm` field. -/
structure Ident where
  nm : String
  sym : Nat
deriving DecidableEq, Repr

/-- Marker string to base the unique identifier generated by
`extern_crate_hack()` on. -/
def EXTERN_CRATE_HACK : String := "__gfx_extern_crate_hack"

/-- Embedding of `token::gensym_ident`: the process-wide monotonic counter is
an injected parameter; the returned identifier carries the given text and a
fresh symbol number, and the incremented counter is returned alongside. -/
def gensym_ident (s : String) (ctr : Nat) : Ident × Nat :=
  (⟨s, ctr⟩, ctr + 1)

/-! ### Items and the alias injector -/

/-- Item visibility, as in `ast::Visibility`. -/
inductive Vis where
  | publicVis
  | inherited
deriving DecidableEq, Repr

/-- A view item in the generated module body, as in `ast::ViewItem`. The
first form is `ast::ViewItemExternCrate` (binding ident, crate-name string);
the second is the simple-use form produced by `view_use_simple_` (the bound
name and the path it re-exports). Spans are `Nat`. -/
inductive ViewItem where
  | crateImport (span : Nat) (vis : Vis) (binding : String) (crateName : String)
  | useSimple (span : Nat) (vis : Vis) (nm : String) (path : List String)
deriving DecidableEq, Repr

/-- A top-level item: here always the module built by `context.item_mod`,
with its name, span, view items and sub-items. -/
structure Item where
  ident : Ident
  span : Nat
  viewItems : List ViewItem
  subItems : List Nat
deriving DecidableEq, Repr

/-- Embedding of `extern_crate_hack`: gensym a fresh identifier from the
marker, build the module

  mod $EXTERN_CRATE_HACK { extern crate gfx_ = "gfx"; pub use gfx_ as gfx; }

push it (the pushed items are returned as a list), and return the identifier.
The gensym counter is threaded explicitly. -/
def extern_crate_hack (span : Nat) (ctr : Nat) : Ident × List Item × Nat :=
  let (freshId, ctr') := gensym_ident EXTERN_CRATE_HACK ctr
  let item : Item :=
    { ident := freshId
      span := span
      viewItems :=
        [ ViewItem.crateImport span Vis.inherited "gfx_" "gfx"
        , ViewItem.useSimple span Vis.publicVis "gfx" ["self", "gfx_"] ]
      subItems := [] }
  (freshId, [item], ctr')

/-- N successive calls of `extern_crate_hack` against the threaded gensym
counter, collecting the returned identifiers in order. -/
def hackIdents (span : Nat) : Nat → Nat → List Ident
  | _, 0 => []
  | ctr, n + 1 =>
    let (freshId, _, ctr') := extern_crate_hack span ctr
    freshId :: hackIdents span ctr' n

/-! ### Paths and the ExternCrateHackFolder -/

mutual

/-- A type node, as in `ast::Ty`: either a path type (`ast::TyPath`, the node
kind the folder's recursion can reach another path through) or some other
type node containing no path, kept opaque. -/
inductive Ty where
  | tyPath (p : Path) : Ty
  | tyOther (n : Nat) : Ty

/-- A path segment, as in `ast::PathSegment`: an identifier plus lifetime and
type parameters (lifetimes kept opaque). -/
inductive PathSegment where
  | mk (identifier : Ident) (lifetimes : List Nat) (types : List Ty) : PathSegment

/-- A path, as in `ast::Path`: the `global` flag, the segment list and the
span. -/
inductive Path where
  | mk (global : Bool) (segments : List PathSegment) (span : Nat) : Path

end

/-- The identifier of a path segment. -/
def PathSegment.identifier : PathSegment → Ident
  | .mk i _ _ => i

/-- The lifetime parameters of a path segment. -/
def PathSegment.lifetimes : PathSegment → List Nat
  | .mk _ l _ => l

/-- The type parameters of a path segment. -/
def PathSegment.types : PathSegment → List Ty
  | .mk _ _ t => t

/-- The `global` flag of a path. -/
def Path.global : Path → Bool
  | .mk g _ _ => g

/-- The segment list of a path. -/
def Path.segments : Path → List PathSegment
  | .mk _ s _ => s

/-- The span of a path. -/
def Path.span : Path → Nat
  | .mk _ _ sp => sp

/-- The `needs_fix` test of `fold_path`:
`p.segments.get(0).map(|s| s.identifier.as_str() == EXTERN_CRATE_HACK).unwrap_or(false)`. -/
def needs_fix_on (segs : List PathSegment) : Bool :=
  ((segs.get? 0).map (fun s => s.identifier.nm == EXTERN_CRATE_HACK)).getD false

/-- The `needs_fix_self` test of `fold_path`: first segment "self" and second
segment the marker, each via `map(...).unwrap_or(false)`. -/
def needs_fix_self_on (segs : List PathSegment) : Bool :=
  (((segs.get? 0).map (fun s => s.identifier.nm == "self")).getD false) &&
  (((segs.get? 1).map (fun s => s.identifier.nm == EXTERN_CRATE_HACK)).getD false)

/-- The assignment `p.segments[i].identifier = self.path_root` on the segment
list: replace the identifier of the segment at index `i`, keeping everything
else. -/
def setSegIdent (r : Ident) : Nat → List PathSegment → List PathSegment
  | _, [] => []
  | 0, PathSegment.mk _ lts tys :: ss => PathSegment.mk r lts tys :: ss
  | n + 1, s :: ss => s :: setSegIdent r n ss

mutual

/-- The folder's action on a type node: `fold_ty` recurses into path types
(the folder overrides nothing but `fold_path`, so everything else is the
generic structural traversal). -/
def foldTy (r : Ident) : Ty → Ty
  | .tyPath p => .tyPath (fold_path r p)
  | .tyOther n => .tyOther n

/-- Pointwise `foldTy` over a list of type parameters. -/
def foldTyList (r : Ident) : List Ty → List Ty
  | [] => []
  | t :: ts => foldTy r t :: foldTyList r ts

/-- The `noop_fold_path` action on one segment: identifier and lifetimes are
untouched (the folder overrides neither `fold_ident` nor `fold_lifetime`),
type parameters are folded recursively. -/
def foldSegment (r : Ident) : PathSegment → PathSegment
  | .mk i lts tys => .mk i lts (foldTyList r tys)

/-- Pointwise `foldSegment` over a segment list. -/
def foldSegmentList (r : Ident) : List PathSegment → List PathSegment
  | [] => []
  | s :: ss => foldSegment r s :: foldSegmentList r ss

/-- Embedding of `ExternCrateHackFolder::fold_path` with `path_root = r`:
first run `noop_fold_path` (the recursive structural traversal), then rewrite
segment 0 if the path is marker-rooted, else segment 1 if it is
self-then-marker, clearing the `global` flag in either case; otherwise return
the traversed path unchanged. -/
def fold_path (r : Ident) : Path → Path
  | .mk g segs0 sp =>
    if needs_fix_on (foldSegmentList r segs0) then
      Path.mk false (setSegIdent r 0 (foldSegmentList r segs0)) sp
    else if needs_fix_self_on (foldSegmentList r segs0) then
      Path.mk false (setSegIdent r 1 (foldSegmentList r segs0)) sp
    else
      Path.mk g (foldSegmentList r segs0) sp

end

/-- Embedding of `syntax::fold::noop_fold_path` for this folder: traverse the
segments structurally, keeping the `global` flag and span. -/
def noop_fold_path (r : Ident) : Path → Path
  | .mk g segs sp => .mk g (foldSegmentList r segs) sp

/-- Whether `fold_path` takes one of its two rewriting branches on `p`
(the tests are made on the structurally traversed segments, as in the
source). -/
def rewriteHit (r : Ident) (p : Path) : Bool :=
  needs_fix_on (foldSegmentList r p.segments) ||
  needs_fix_self_on (foldSegmentList r p.segments)

mutual

/-- A type node contains no path matching either rewrite rule. -/
def tyClean : Ty → Bool
  | .tyPath p => pathClean p
  | .tyOther _ => true

/-- No type in the list contains a matching path. -/
def tyListClean : List Ty → Bool
  | [] => true
  | t :: ts => tyClean t && tyListClean ts

/-- A segment's type parameters contain no matching path. -/
def segClean : PathSegment → Bool
  | .mk _ _ tys => tyListClean tys

/-- No segment in the list contains a matching path. -/
def segListClean : List PathSegment → Bool
  | [] => true
  | s :: ss => segClean s && segListClean ss

/-- A path matches neither rewrite rule, and no path nested in its segments'
type parameters does either. -/
def pathClean : Path → Bool
  | .mk _ segs _ =>
    !(needs_fix_on segs || needs_fix_self_on segs) && segListClean segs

end

/-! ### Structural lemmas about the folder -/

theorem setSegIdent_setSegIdent (r : Ident) :
    ∀ (i : Nat) (xs : List PathSegment),
      setSegIdent r i (setSegIdent r i xs) = setSegIdent r i xs
  | i, [] => by cases i <;> rfl
  | 0, .mk _ _ _ :: _ => rfl
  | n + 1, s :: ss => by
      simp only [setSegIdent]
      rw [setSegIdent_setSegIdent r n ss]

theorem foldSegmentList_setSegIdent (r : Ident) :
    ∀ (i : Nat) (xs : List PathSegment),
      foldSegmentList r (setSegIdent r i xs) = setSegIdent r i (foldSegmentList r xs)
  | i, [] => by cases i <;> rfl
  | 0, .mk _ _ _ :: _ => by
      simp only [setSegIdent, foldSegmentList, foldSegment]
  | n + 1, s :: ss => by
      simp only [setSegIdent, foldSegmentList]
      rw [foldSegmentList_setSegIdent r n ss]

theorem setSegIdent_length (r : Ident) :
    ∀ (i : Nat) (xs : List PathSegment), (setSegIdent r i xs).length = xs.length
  | i, [] => by cases i <;> rfl
  | 0, .mk _ _ _ :: _ => rfl
  | n + 1, s :: ss => by
      simp only [setSegIdent, List.length_cons]
      rw [setSegIdent_length r n ss]

theorem foldSegmentList_length (r : Ident) :
    ∀ (xs : List PathSegment), (foldSegmentList r xs).length = xs.length
  | [] => rfl
  | s :: ss => by
      simp only [foldSegmentList, List.length_cons]
      rw [foldSegmentList_length r ss]

theorem foldSegmentList_get (r : Ident) :
    ∀ (xs : List PathSegment) (i : Nat),
      (foldSegmentList r xs).get? i = (xs.get? i).map (foldSegment r)
  | [], _ => by simp [foldSegmentList]
  | s :: ss, 0 => rfl
  | s :: ss, i + 1 => by
      simp only [foldSegmentList, List.get?_cons_succ]
      exact foldSegmentList_get r ss i

theorem setSegIdent_get_other (r : Ident) :
    ∀ (j i : Nat) (xs : List PathSegment), i ≠ j →
      (setSegIdent r j xs).get? i = xs.get? i
  | j, i, [], _ => by cases j <;> rfl
  | 0, 0, _ :: _, h => absurd rfl h
  | 0, i + 1, .mk _ _ _ :: _, _ => rfl
  | _ + 1, 0, _ :: _, _ => rfl
  | j + 1, i + 1, s :: ss, h => by
      simp only [setSegIdent, List.get?_cons_succ]
      exact setSegIdent_get_other r j i ss (fun hij => h (by rw [hij]))

theorem setSegIdent_get_self (r : Ident) :
    ∀ (j : Nat) (xs : List PathSegment),
      (setSegIdent r j xs).get? j =
        (xs.get? j).map (fun s => PathSegment.mk r s.lifetimes s.types)
  | j, [] => by cases j <;> rfl
  | 0, .mk _ _ _ :: _ => rfl
  | j + 1, s :: ss => by
      simp only [setSegIdent, List.get?_cons_succ]
      exact setSegIdent_get_self r j ss

theorem foldSegment_identifier (r : Ident) (s : PathSegment) :
    (foldSegment r s).identifier = s.identifier := by
  rcases s with ⟨i, l, t⟩
  rfl

theorem foldSegment_lifetimes (r : Ident) (s : PathSegment) :
    (foldSegment r s).lifetimes = s.lifetimes := by
  rcases s with ⟨i, l, t⟩
  rfl

theorem foldSegment_types (r : Ident) (s : PathSegment) :
    (foldSegment r s).types = foldTyList r s.types := by
  rcases s with ⟨i, l, t⟩
  rfl

theorem needs_fix_on_nil : needs_fix_on [] = false := rfl

theorem needs_fix_on_cons (s : PathSegment) (ss : List PathSegment) :
    needs_fix_on (s :: ss) = (s.identifier.nm == EXTERN_CRATE_HACK) := rfl

theorem needs_fix_on_set1 (r : Ident) :
    ∀ (xs : List PathSegment), needs_fix_on (setSegIdent r 1 xs) = needs_fix_on xs
  | [] => rfl
  | _ :: _ => rfl

theorem needs_fix_on_set0 (r : Ident) (hr : r.nm = EXTERN_CRATE_HACK) :
    ∀ (xs : List PathSegment), xs ≠ [] → needs_fix_on (setSegIdent r 0 xs) = true
  | [], h => absurd rfl h
  | .mk _ _ _ :: _, _ => by
      simp [setSegIdent, needs_fix_on_cons, PathSegment.identifier, hr]

theorem needs_fix_self_on_set1 (r : Ident) (hr : r.nm = EXTERN_CRATE_HACK) :
    ∀ (xs : List PathSegment), needs_fix_self_on xs = true →
      needs_fix_self_on (setSegIdent r 1 xs) = true
  | [], h => by simp [needs_fix_self_on] at h
  | [s], h => by simp [needs_fix_self_on] at h
  | s0 :: .mk _ _ _ :: rest, h => by
      simp only [needs_fix_self_on, setSegIdent, List.get?_cons_zero, List.get?_cons_succ,
        Option.map_some', Option.getD_some, Bool.and_eq_true, PathSegment.identifier] at h ⊢
      exact ⟨h.1, by simp [hr]⟩

/-! ### The folder is the identity on clean paths -/

mutual

theorem foldTy_clean_id (r : Ident) : (t : Ty) → tyClean t = true → foldTy r t = t
  | .tyPath p, h => by
      have hp : pathClean p = true := h
      simp only [foldTy]
      rw [fold_path_clean_id r p hp]
  | .tyOther n, _ => by simp only [foldTy]

theorem foldTyList_clean_id (r : Ident) :
    (ts : List Ty) → tyListClean ts = true → foldTyList r ts = ts
  | [], _ => rfl
  | t :: ts, h => by
      have h' : tyClean t = true ∧ tyListClean ts = true := by
        simpa [tyListClean, Bool.and_eq_true] using h
      simp only [foldTyList]
      rw [foldTy_clean_id r t h'.1, foldTyList_clean_id r ts h'.2]

theorem foldSegment_clean_id (r : Ident) :
    (s : PathSegment) → segClean s = true → foldSegment r s = s
  | .mk i lts tys, h => by
      have h' : tyListClean tys = true := by simpa [segClean] using h
      simp only [foldSegment]
      rw [foldTyList_clean_id r tys h']

theorem foldSegmentList_clean_id (r : Ident) :
    (ss : List PathSegment) → segListClean ss = true → foldSegmentList r ss = ss
  | [], _ => rfl
  | s :: ss, h => by
      have h' : segClean s = true ∧ segListClean ss = true := by
        simpa [segListClean, Bool.and_eq_true] using h
      simp only [foldSegmentList]
      rw [foldSegment_clean_id r s h'.1, foldSegmentList_clean_id r ss h'.2]

theorem fold_path_clean_id (r : Ident) : (p : Path) → pathClean p = true → fold_path r p = p
  | .mk g segs sp, h => by
      have h' : (!(needs_fix_on segs || needs_fix_self_on segs) && segListClean segs) = true := by
        simpa [pathClean] using h
      rw [Bool.and_eq_true] at h'
      rcases h' with ⟨hnot, hcl⟩
      have hor : (needs_fix_on segs || needs_fix_self_on segs) = false := by
        cases hx : (needs_fix_on segs || needs_fix_self_on segs)
        · rfl
        · rw [hx] at hnot
          exact Bool.noConfusion hnot
      rcases Bool.or_eq_false_iff.mp hor with ⟨h1, h2⟩
      simp only [fold_path]
      rw [foldSegmentList_clean_id r segs hcl, h1, h2]
      simp

end

/-! ### Branch equations for fold_path -/

theorem fold_path_eq_of_fix (r : Ident) (g : Bool) (segs : List PathSegment) (sp : Nat)
    (h : needs_fix_on (foldSegmentList r segs) = true) :
    fold_path r (.mk g segs sp) =
      .mk false (setSegIdent r 0 (foldSegmentList r segs)) sp := by
  simp only [fold_path, h]
  simp

theorem fold_path_eq_of_fix_self (r : Ident) (g : Bool) (segs : List PathSegment) (sp : Nat)
    (h1 : needs_fix_on (foldSegmentList r segs) = false)
    (h2 : needs_fix_self_on (foldSegmentList r segs) = true) :
    fold_path r (.mk g segs sp) =
      .mk false (setSegIdent r 1 (foldSegmentList r segs)) sp := by
  simp only [fold_path, h1, h2]
  simp

theorem fold_path_eq_of_none (r : Ident) (g : Bool) (segs : List PathSegment) (sp : Nat)
    (h1 : needs_fix_on (foldSegmentList r segs) = false)
    (h2 : needs_fix_self_on (foldSegmentList r segs) = false) :
    fold_path r (.mk g segs sp) = .mk g (foldSegmentList r segs) sp := by
  simp only [fold_path, h1, h2]
  simp

/-! ### Idempotence of the folder when the root keeps the marker text -/

mutual

theorem foldTy_idem_aux (r : Ident) (hr : r.nm = EXTERN_CRATE_HACK) :
    (t : Ty) → foldTy r (foldTy r t) = foldTy r t
  | .tyPath p => by
      simp only [foldTy]
      rw [fold_path_idem_aux r hr p]
  | .tyOther n => by simp only [foldTy]

theorem foldTyList_idem_aux (r : Ident) (hr : r.nm = EXTERN_CRATE_HACK) :
    (ts : List Ty) → foldTyList r (foldTyList r ts) = foldTyList r ts
  | [] => rfl
  | t :: ts => by
      simp only [foldTyList]
      rw [foldTy_idem_aux r hr t, foldTyList_idem_aux r hr ts]

theorem foldSegment_idem_aux (r : Ident) (hr : r.nm = EXTERN_CRATE_HACK) :
    (s : PathSegment) → foldSegment r (foldSegment r s) = foldSegment r s
  | .mk i lts tys => by
      simp only [foldSegment]
      rw [foldTyList_idem_aux r hr tys]

theorem foldSegmentList_idem_aux (r : Ident) (hr : r.nm = EXTERN_CRATE_HACK) :
    (ss : List PathSegment) → foldSegmentList r (foldSegmentList r ss) = foldSegmentList r ss
  | [] => rfl
  | s :: ss => by
      simp only [foldSegmentList]
      rw [foldSegment_idem_aux r hr s, foldSegmentList_idem_aux r hr ss]

theorem fold_path_idem_aux (r : Ident) (hr : r.nm = EXTERN_CRATE_HACK) :
    (p : Path) → fold_path r (fold_path r p) = fold_path r p
  | .mk g segs sp => by
      have hidem : foldSegmentList r (foldSegmentList r segs) = foldSegmentList r segs :=
        foldSegmentList_idem_aux r hr segs
      cases h1 : needs_fix_on (foldSegmentList r segs) with
      | true =>
        rw [fold_path_eq_of_fix r g segs sp h1]
        have hne : foldSegmentList r segs ≠ [] := by
          intro hE
          rw [hE, needs_fix_on_nil] at h1
          exact Bool.noConfusion h1
        have hset : foldSegmentList r (setSegIdent r 0 (foldSegmentList r segs)) =
            setSegIdent r 0 (foldSegmentList r segs) := by
          rw [foldSegmentList_setSegIdent, hidem]
        have h1' : needs_fix_on
            (foldSegmentList r (setSegIdent r 0 (foldSegmentList r segs))) = true := by
          rw [hset]
          exact needs_fix_on_set0 r hr _ hne
        rw [fold_path_eq_of_fix r false _ sp h1', hset, setSegIdent_setSegIdent]
      | false =>
        cases h2 : needs_fix_self_on (foldSegmentList r segs) with
        | true =>
          rw [fold_path_eq_of_fix_self r g segs sp h1 h2]
          have hset : foldSegmentList r (setSegIdent r 1 (foldSegmentList r segs)) =
              setSegIdent r 1 (foldSegmentList r segs) := by
            rw [foldSegmentList_setSegIdent, hidem]
          have h1' : needs_fix_on
              (foldSegmentList r (setSegIdent r 1 (foldSegmentList r segs))) = false := by
            rw [hset, needs_fix_on_set1]
            exact h1
          have h2' : needs_fix_self_on
              (foldSegmentList r (setSegIdent r 1 (foldSegmentList r segs))) = true := by
            rw [hset]
            exact needs_fix_self_on_set1 r hr _ h2
          rw [fold_path_eq_of_fix_self r false _ sp h1' h2', hset, setSegIdent_setSegIdent]
        | false =>
          rw [fold_path_eq_of_none r g segs sp h1 h2]
          have h1' : needs_fix_on (foldSegmentList r (foldSegmentList r segs)) = false := by
            rw [hidem]
            exact h1
          have h2' : needs_fix_self_on (foldSegmentList r (foldSegmentList r segs)) = false := by
            rw [hidem]
            exact h2
          rw [fold_path_eq_of_none r g _ sp h1' h2', hidem]

end

/-! ### Frame lemmas for the two rewriting branches -/

theorem setFold_lifetimes (r : Ident) (j : Nat) (segs : List PathSegment) (i : Nat) :
    ((setSegIdent r j (foldSegmentList r segs)).get? i).map PathSegment.lifetimes =
      (segs.get? i).map PathSegment.lifetimes := by
  by_cases hi : i = j
  · subst hi
    rw [setSegIdent_get_self, foldSegmentList_get]
    cases segs.get? i with
    | none => rfl
    | some s =>
        simp only [Option.map_some']
        exact congrArg some (foldSegment_lifetimes r s)
  · rw [setSegIdent_get_other r j i _ hi, foldSegmentList_get]
    cases segs.get? i with
    | none => rfl
    | some s =>
        simp only [Option.map_some']
        exact congrArg some (foldSegment_lifetimes r s)

theorem setFold_types (r : Ident) (j : Nat) (segs : List PathSegment) (i : Nat) :
    ((setSegIdent r j (foldSegmentList r segs)).get? i).map PathSegment.types =
      (segs.get? i).map (fun s => foldTyList r s.types) := by
  by_cases hi : i = j
  · subst hi
    rw [setSegIdent_get_self, foldSegmentList_get]
    cases segs.get? i with
    | none => rfl
    | some s =>
        simp only [Option.map_some']
        exact congrArg some (foldSegment_types r s)
  · rw [setSegIdent_get_other r j i _ hi, foldSegmentList_get]
    cases segs.get? i with
    | none => rfl
    | some s =>
        simp only [Option.map_some']
        exact congrArg some (foldSegment_types r s)

theorem setFold_identifier_other (r : Ident) (j : Nat) (segs : List PathSegment) (i : Nat)
    (hi : i ≠ j) :
    ((setSegIdent r j (foldSegmentList r segs)).get? i).map PathSegment.identifier =
      (segs.get? i).map PathSegment.identifier := by
  rw [setSegIdent_get_other r j i _ hi, foldSegmentList_get]
  cases segs.get? i with
  | none => rfl
  | some s =>
      simp only [Option.map_some']
      exact congrArg some (foldSegment_identifier r s)

theorem fold_lifetimes (r : Ident) (segs : List PathSegment) (i : Nat) :
    ((foldSegmentList r segs).get? i).map PathSegment.lifetimes =
      (segs.get? i).map PathSegment.lifetimes := by
  rw [foldSegmentList_get]
  cases segs.get? i with
  | none => rfl
  | some s =>
      simp only [Option.map_some']
      exact congrArg some (foldSegment_lifetimes r s)

theorem fold_types (r : Ident) (segs : List PathSegment) (i : Nat) :
    ((foldSegmentList r segs).get? i).map PathSegment.types =
      (segs.get? i).map (fun s => foldTyList r s.types) := by
  rw [foldSegmentList_get]
  cases segs.get? i with
  | none => rfl
  | some s =>
      simp only [Option.map_some']
      exact congrArg some (foldSegment_types r s)

theorem fold_identifier (r : Ident) (segs : List PathSegment) (i : Nat) :
    ((foldSegmentList r segs).get? i).map PathSegment.identifier =
      (segs.get? i).map PathSegment.identifier := by
  rw [foldSegmentList_get]
  cases segs.get? i with
  | none => rfl
  | some s =>
      simp only [Option.map_some']
      exact congrArg some (foldSegment_identifier r s)

/-! ### The shaders! macro -/

/-- The keywords recognized by the `shaders!` macro. -/
inductive ShaderKeyword where
  | GLSL_120
  | GLSL_130
  | GLSL_140
  | GLSL_150
  | TARGETS
deriving DecidableEq, Repr

/-- The record literal the `shaders!` macro builds
(`gfx::ShaderSource`), with each slot optional. -/
structure ShaderSource (α : Type) where
  glsl_120 : Option α
  glsl_130 : Option α
  glsl_140 : Option α
  glsl_150 : Option α
  targets : Option α
deriving DecidableEq, Repr

/-- Embedding of the `shaders!` expansion: each `KEYWORD: value` head wraps a
single-field record update around the recursive expansion of the remaining
directives, and the empty form produces the all-`None` record. -/
def shadersExpand {α : Type} : List (ShaderKeyword × α) → ShaderSource α
  | [] => ⟨none, none, none, none, none⟩
  | (k, v) :: rest =>
    let inner := shadersExpand rest
    match k with
    | .GLSL_120 => { inner with glsl_120 := some v }
    | .GLSL_130 => { inner with glsl_130 := some v }
    | .GLSL_140 => { inner with glsl_140 := some v }
    | .GLSL_150 => { inner with glsl_150 := some v }
    | .TARGETS => { inner with targets := some v }

/-! ### Theorems -/

/-- C1. On a field with `name = "a"` then `name = "b"` the fold warns exactly
once, naming the rejected "b" and the retained "a", but its accumulator
collapses to `None` in the warning branch, so `find_name` returns `None`
rather than the `Some("a")` the claim (and the function's own doc comment)
promises; with a third `name = "c"` the result is `Some("c")`, so the first
occurrence does not retain priority. -/
theorem find_name_duplicate_eval :
    (find_name [⟨0, .metaNameValue "name" (.litStr "a")⟩,
                ⟨1, .metaNameValue "name" (.litStr "b")⟩]).1 = none ∧
    (find_name [⟨0, .metaNameValue "name" (.litStr "a")⟩,
                ⟨1, .metaNameValue "name" (.litStr "b")⟩]).2.warnings = [warnText "b" "a"] ∧
    List.IsInfix "b".data (warnText "b" "a").data ∧
    List.IsInfix "a".data (warnText "b" "a").data ∧
    (find_name [⟨0, .metaNameValue "name" (.litStr "a")⟩,
                ⟨1, .metaNameValue "name" (.litStr "b")⟩,
                ⟨2, .metaNameValue "name" (.litStr "c")⟩]).1 = some "c" := by
  refine ⟨rfl, rfl, ?_, ?_, rfl⟩ <;> decide

/-- C2 counterexample. Inserting the annotation `doc = "x"` — not of the
recognized form — after `name = "a"` changes the result of `find_name` from
`Some("a")` to `None`: the inner wildcard arm of the fold resets the
accumulator on every name/value annotation that is not `name = "string"`. -/
theorem find_name_passthrough_cex :
    (find_name [⟨0, .metaNameValue "name" (.litStr "a")⟩,
                ⟨1, .metaNameValue "doc" (.litStr "x")⟩]).1 ≠
    (find_name [⟨0, .metaNameValue "name" (.litStr "a")⟩]).1 := by
  decide

/-- C2 amended. An annotation that is not a name/value pair at all (a bare
word or a list form) has no effect on `find_name` — inserting it anywhere
leaves the result, the warnings and the used-marks unchanged, so it is not
marked consumed. A name/value annotation that is not of the recognized form
(key other than "name", or a non-string value) is likewise not marked
consumed, but it is not inert: the fold step on it resets the running result
to `None` while leaving the side-effect state alone. -/
theorem find_name_passthrough_amended (a b : Attribute)
    (ha : isNameValueShape a.node = false)
    (hb : isNameValueShape b.node = true) (hbm : isNameMatch b.node = false) :
    (∀ xs ys, find_name (xs ++ a :: ys) = find_name (xs ++ ys)) ∧
    (∀ acc, find_name_step acc b = (none, acc.2)) := by
  constructor
  · intro xs ys
    have hstep : ∀ acc, find_name_step acc a = acc := by
      intro acc
      rcases a with ⟨i, node⟩
      cases node with
      | metaWord nm => rfl
      | metaList nm items => rfl
      | metaNameValue nm v => simp [isNameValueShape] at ha
    simp [find_name, List.foldl_append, List.foldl_cons, hstep]
  · intro acc
    rcases b with ⟨i, node⟩
    cases node with
    | metaWord nm => simp [isNameValueShape] at hb
    | metaList nm items => simp [isNameValueShape] at hb
    | metaNameValue nm v =>
      cases v with
      | litOther k => rfl
      | litStr s =>
        have hnm : nm ≠ "name" := by
          intro h
          subst h
          have ht : isNameMatch (MetaItem.metaNameValue "name" (Lit.litStr s)) = true := rfl
          rw [ht] at hbm
          exact Bool.noConfusion hbm
        simp [find_name_step, hnm]

/-- C2 witness: the amended theorem at a bare-word annotation and at a
`doc = "x"` annotation. -/
theorem find_name_passthrough_amended_w :
    (find_name ([⟨0, .metaNameValue "name" (.litStr "a")⟩] ++ ⟨1, .metaWord "w"⟩ :: []) =
      find_name ([⟨0, .metaNameValue "name" (.litStr "a")⟩] ++ [])) ∧
    find_name_step (some "a", ⟨[], [0]⟩) ⟨1, .metaNameValue "doc" (.litStr "x")⟩ =
      (none, (⟨[], [0]⟩ : FindNameState)) :=
  ⟨(find_name_passthrough_amended ⟨1, .metaWord "w"⟩ ⟨1, .metaNameValue "doc" (.litStr "x")⟩
      rfl rfl rfl).1 _ _,
   (find_name_passthrough_amended ⟨1, .metaWord "w"⟩ ⟨1, .metaNameValue "doc" (.litStr "x")⟩
      rfl rfl rfl).2 _⟩

/-- C6. On a field whose attributes are exactly one recognized `name = "x"`
followed by an unrecognized name/value annotation `doc = "y"`, `find_name`
returns `None`, not the `Some("x")` its doc comment promises: the wildcard
arm for non-matching name/value pairs resets the accumulator. With no
recognized annotation at all the result is `None`, as claimed. -/
theorem find_name_single_override_eval :
    (find_name [⟨0, .metaNameValue "name" (.litStr "x")⟩,
                ⟨1, .metaNameValue "doc" (.litStr "y")⟩]).1 = none ∧
    (find_name [⟨0, .metaWord "w"⟩, ⟨1, .metaNameValue "doc" (.litStr "y")⟩]).1 = none := by
  exact ⟨rfl, rfl⟩

/-- C4. Expanding `GLSL_120: a GLSL_120: b` with the `shaders!` expander
yields `glsl_120 = Some(a)`: the leftmost occurrence becomes the outermost
record update, so it wins over the rightmost. -/
theorem shaders_duplicate_leftmost_wins {α : Type} (a b : α) :
    (shadersExpand [(ShaderKeyword.GLSL_120, a), (ShaderKeyword.GLSL_120, b)]).glsl_120 =
      some a := rfl

/-- C8. Every call of `extern_crate_hack` pushes exactly one item: a module
named by the returned identifier whose body is, in order, a non-public
extern-crate import of "gfx" bound to `gfx_`, then a public re-export of
`self::gfx_` under the fixed name `gfx`. -/
theorem extern_crate_hack_push_once (span ctr : Nat) :
    (extern_crate_hack span ctr).2.1 =
      [{ ident := (extern_crate_hack span ctr).1
         span := span
         viewItems := [ViewItem.crateImport span Vis.inherited "gfx_" "gfx",
                       ViewItem.useSimple span Vis.publicVis "gfx" ["self", "gfx_"]]
         subItems := [] }] := rfl

/-- The identifiers returned by N successive calls of `extern_crate_hack`
are the marker text paired with the successive gensym counter values. -/
theorem hackIdents_map_range (span : Nat) :
    ∀ (n ctr : Nat), hackIdents span ctr n =
      (List.range n).map (fun i => (⟨EXTERN_CRATE_HACK, ctr + i⟩ : Ident)) := by
  intro n
  induction n with
  | zero => intro ctr; rfl
  | succ n ih =>
    intro ctr
    rw [hackIdents, List.range_succ_eq_map, List.map_cons, List.map_map]
    show Ident.mk EXTERN_CRATE_HACK ctr :: hackIdents span (ctr + 1) n = _
    rw [ih (ctr + 1)]
    refine congrArg₂ _ rfl (List.map_congr_left ?_)
    intro i _
    show Ident.mk EXTERN_CRATE_HACK (ctr + 1 + i) = Ident.mk EXTERN_CRATE_HACK (ctr + Nat.succ i)
    rw [Nat.add_assoc, Nat.add_comm 1 i]

/-- C5. Invoking the Alias Injector N times against the injected monotonic
gensym counter returns N pairwise-distinct identifiers. -/
theorem hackIdents_pairwise_distinct (span ctr n : Nat) :
    (hackIdents span ctr n).Pairwise (· ≠ ·) := by
  rw [hackIdents_map_range]
  refine List.Pairwise.map _ (fun a b (hab : a < b) => ?_) (List.pairwise_lt_range n)
  intro heq
  have : ctr + a = ctr + b := congrArg Ident.sym heq
  omega

/-- C3 counterexample. With target identifier X, a path `self::marker::Other`
is rewritten by replacing its *second* segment's identifier, producing the
three-segment path `self::X::Other` — not the two-segment path `X::Other` the
claim states. -/
theorem fold_path_self_rewrite_cex :
    fold_path ⟨"X", 7⟩
        (.mk true [.mk ⟨"self", 0⟩ [] [], .mk ⟨EXTERN_CRATE_HACK, 0⟩ [] [],
                   .mk ⟨"Other", 0⟩ [] []] 5) ≠
      .mk false [.mk ⟨"X", 7⟩ [] [], .mk ⟨"Other", 0⟩ [] []] 5 := by
  intro h
  simp [fold_path, foldSegmentList, foldSegment, foldTyList, needs_fix_on, needs_fix_self_on,
    setSegIdent, PathSegment.identifier, EXTERN_CRATE_HACK] at h

/-- C3 amended. With target identifier X, a path `marker::Thing` is rewritten
to `X::Thing`, and a path `self::marker::Other` is rewritten to
`self::X::Other` (the second segment's identifier is replaced and the leading
`self` segment remains); both results are marked locally-rooted
(`global = false`). -/
theorem fold_path_rewrite_amended (X thing other : Ident) (k k2 k3 : Nat)
    (g g2 : Bool) (sp sp2 : Nat) (l0 l1 l2 l3 l4 : List Nat) :
    fold_path X (.mk g [.mk ⟨EXTERN_CRATE_HACK, k⟩ l0 [], .mk thing l1 []] sp) =
      .mk false [.mk X l0 [], .mk thing l1 []] sp ∧
    fold_path X (.mk g2 [.mk ⟨"self", k2⟩ l2 [], .mk ⟨EXTERN_CRATE_HACK, k3⟩ l3 [],
                         .mk other l4 []] sp2) =
      .mk false [.mk ⟨"self", k2⟩ l2 [], .mk X l3 [], .mk other l4 []] sp2 := by
  constructor <;>
    simp [fold_path, foldSegmentList, foldSegment, foldTyList, needs_fix_on, needs_fix_self_on,
      setSegIdent, PathSegment.identifier, EXTERN_CRATE_HACK]

/-- C7. The Reference Rewriter is the identity on clean fragments: a path that
matches neither rewrite rule, and none of whose nested paths (inside segment
type parameters) matches either, is returned unchanged by `fold_path`. Since
the folder is a structural no-op on every other node kind, a fragment all of
whose paths are clean is returned unchanged. -/
theorem fold_path_identity_on_clean (r : Ident) (p : Path) (h : pathClean p = true) :
    fold_path r p = p :=
  fold_path_clean_id r p h

/-- C7 witness: a clean two-level path (with a nested path in a type
parameter) is fixed by the rewriter. -/
theorem fold_path_identity_on_clean_w :
    pathClean (Path.mk true [PathSegment.mk ⟨"std", 0⟩ []
        [Ty.tyPath (Path.mk false [PathSegment.mk ⟨"vec", 1⟩ [] [],
                                   PathSegment.mk ⟨"Vec", 2⟩ [] []] 9)]] 2) = true ∧
    fold_path ⟨"X", 7⟩ (Path.mk true [PathSegment.mk ⟨"std", 0⟩ []
        [Ty.tyPath (Path.mk false [PathSegment.mk ⟨"vec", 1⟩ [] [],
                                   PathSegment.mk ⟨"Vec", 2⟩ [] []] 9)]] 2) =
      Path.mk true [PathSegment.mk ⟨"std", 0⟩ []
        [Ty.tyPath (Path.mk false [PathSegment.mk ⟨"vec", 1⟩ [] [],
                                   PathSegment.mk ⟨"Vec", 2⟩ [] []] 9)]] 2 :=
  ⟨rfl, fold_path_identity_on_clean ⟨"X", 7⟩ _ rfl⟩

/-- C9. When the rewrite root's text equals the marker string (as it does for
the identifier `gensym_ident` produces from `EXTERN_CRATE_HACK`), `fold_path`
is idempotent: the second application re-matches the rewritten segment — the
match is textual — and replaces it with the identical identifier. -/
theorem fold_path_idempotent (r : Ident) (p : Path) (hr : r.nm = EXTERN_CRATE_HACK) :
    fold_path r (fold_path r p) = fold_path r p :=
  fold_path_idem_aux r hr p

/-- C9 witness: idempotence at a gensym'd marker root on a
`self::marker::Other` path. -/
theorem fold_path_idempotent_w :
    fold_path ⟨EXTERN_CRATE_HACK, 5⟩
        (fold_path ⟨EXTERN_CRATE_HACK, 5⟩
          (.mk true [.mk ⟨"self", 0⟩ [] [], .mk ⟨EXTERN_CRATE_HACK, 1⟩ [] [],
                     .mk ⟨"Other", 2⟩ [] []] 6)) =
      fold_path ⟨EXTERN_CRATE_HACK, 5⟩
        (.mk true [.mk ⟨"self", 0⟩ [] [], .mk ⟨EXTERN_CRATE_HACK, 1⟩ [] [],
                   .mk ⟨"Other", 2⟩ [] []] 6) :=
  fold_path_idempotent ⟨EXTERN_CRATE_HACK, 5⟩ _ rfl

/-- C10 counterexample. `fold_path` does not leave segment type parameters
unchanged: on the path `Vec<marker::T>` (a single segment whose type
parameter contains a marker-rooted path) the structural traversal rewrites
the nested path, so the segment's type parameters change even though neither
top-level rule fires. -/
theorem fold_path_frame_cex :
    ((fold_path ⟨"X", 7⟩ (Path.mk false
        [PathSegment.mk ⟨"Vec", 0⟩ []
          [Ty.tyPath (Path.mk false [PathSegment.mk ⟨EXTERN_CRATE_HACK, 0⟩ [] [],
                                     PathSegment.mk ⟨"T", 0⟩ [] []] 3)]] 4)).segments.get? 0).map
        PathSegment.types ≠
      ((Path.mk false
        [PathSegment.mk ⟨"Vec", 0⟩ []
          [Ty.tyPath (Path.mk false [PathSegment.mk ⟨EXTERN_CRATE_HACK, 0⟩ [] [],
                                     PathSegment.mk ⟨"T", 0⟩ [] []] 3)]] 4).segments.get? 0).map
        PathSegment.types := by
  intro h
  simp [fold_path, foldSegmentList, foldSegment, foldTyList, foldTy, needs_fix_on,
    needs_fix_self_on, setSegIdent, PathSegment.identifier, PathSegment.types, Path.segments,
    EXTERN_CRATE_HACK] at h

/-- C10 amended. `fold_path` changes at most one segment's *identifier*
(segment 0 in the marker-rooted case, segment 1 in the self-relative case)
and the `global` flag: the number of segments, every other segment's
identifier, every segment's lifetime parameters and the path's span are
unchanged; each segment's type parameters are not left unchanged but are
recursively folded (nested matching paths inside them are rewritten); the
`global` flag becomes `false` exactly when a rewrite occurs and is unchanged
otherwise. -/
theorem fold_path_frame_amended (r : Ident) (p : Path) :
    ((fold_path r p).segments.length = p.segments.length) ∧
    ((fold_path r p).span = p.span) ∧
    (∀ i, ((fold_path r p).segments.get? i).map PathSegment.lifetimes =
      (p.segments.get? i).map PathSegment.lifetimes) ∧
    (∀ i, ((fold_path r p).segments.get? i).map PathSegment.types =
      (p.segments.get? i).map (fun s => foldTyList r s.types)) ∧
    (∃ j, j ≤ 1 ∧ ∀ i, i = j ∨
      ((fold_path r p).segments.get? i).map PathSegment.identifier =
        (p.segments.get? i).map PathSegment.identifier) ∧
    ((fold_path r p).global = if rewriteHit r p then false else p.global) := by
  rcases p with ⟨g, segs, sp⟩
  cases h1 : needs_fix_on (foldSegmentList r segs) with
  | true =>
    rw [fold_path_eq_of_fix r g segs sp h1]
    refine ⟨?_, rfl, ?_, ?_, ⟨0, by omega, ?_⟩, ?_⟩
    · simp [Path.segments, setSegIdent_length, foldSegmentList_length]
    · intro i
      exact setFold_lifetimes r 0 segs i
    · intro i
      exact setFold_types r 0 segs i
    · intro i
      by_cases hi : i = 0
      · exact Or.inl hi
      · exact Or.inr (setFold_identifier_other r 0 segs i hi)
    · simp [Path.global, rewriteHit, Path.segments, h1]
  | false =>
    cases h2 : needs_fix_self_on (foldSegmentList r segs) with
    | true =>
      rw [fold_path_eq_of_fix_self r g segs sp h1 h2]
      refine ⟨?_, rfl, ?_, ?_, ⟨1, by omega, ?_⟩, ?_⟩
      · simp [Path.segments, setSegIdent_length, foldSegmentList_length]
      · intro i
        exact setFold_lifetimes r 1 segs i
      · intro i
        exact setFold_types r 1 segs i
      · intro i
        by_cases hi : i = 1
        · exact Or.inl hi
        · exact Or.inr (setFold_identifier_other r 1 segs i hi)
      · simp [Path.global, rewriteHit, Path.segments, h1, h2]
    | false =>
      rw [fold_path_eq_of_none r g segs sp h1 h2]
      refine ⟨?_, rfl, ?_, ?_, ⟨0, by omega, ?_⟩, ?_⟩
      · simp [Path.segments, foldSegmentList_length]
      · intro i
        exact fold_lifetimes r segs i
      · intro i
        exact fold_types r segs i
      · intro i
        exact Or.inr (fold_identifier r segs i)
      · simp [Path.global, rewriteHit, Path.segments, h1, h2]

end GfxMacros
